import Mathlib

/-!
Shallow embedding of the BetStrike inviter bot (src/bot.py).

The bot keeps four SQLite tables: `inviters` (user_id ↦ points),
`invite_links` (code ↦ creator_id), `invite_map` (one attribution row per
invitee, with idempotency flags), and `invite_history` (append log, never
written in this revision).  Tables are modelled as association lists in
insertion order (SQLite rowid order: updates in place, inserts appended).
User ids, role ids and invite codes are `Nat`/`String`; point totals are
`Int` (SQLite INTEGER, deltas may be negative).

Event handlers (`on_member_join`, `on_member_update`, `on_member_remove`)
and command bodies (`removepoints`, `reset`, the monthly reset) become pure
state transformers on the `DB` structure.  Discord I/O (log-channel posts,
e-mail, interaction replies) carries no database state and is dropped;
where a handler's reply matters (success/failure of `removepoints`) it is
returned as a `Bool`.
-/

namespace BetStrike

/-- Bool as an integer 0/1, for stating net point deltas. -/
def b2i (b : Bool) : Int := if b then 1 else 0

/-- One entry of the after-join invite list as reported by the platform:
`code`, current `uses` counter, and the platform-reported invite owner
(`inv.inviter` in the source, `None` for e.g. vanity invites). -/
structure Invite where
  code : String
  uses : Nat
  inviter : Option Nat
deriving DecidableEq, Repr

/-- One row of the `invite_map` table (the AttributionRecord). -/
structure InviteMapRow where
  invitee_id : Nat
  inviter_id : Nat
  members_awarded : Bool
  striker_awarded : Bool
  valid_account : Bool
  used_code : Option String
deriving DecidableEq, Repr

/-- The persistent database state: the four tables of `init_db`
(the `log_channel` table only routes log messages and is omitted). -/
structure DB where
  inviters : List (Nat × Int)
  invite_links : List (String × Nat)
  invite_map : List InviteMapRow
  invite_history : List (Nat × Nat)
deriving DecidableEq, Repr

/-- The guild data the handlers consult: the ids of the roles named
"Members" and "Striker", when such roles exist (`discord.utils.get` by
name returns `None` otherwise). -/
structure Guild where
  members_role : Option Nat
  striker_role : Option Nat
deriving DecidableEq, Repr

/-- `ACCOUNT_MIN_AGE_DAYS = 30` from the source configuration. -/
def ACCOUNT_MIN_AGE_DAYS : Nat := 30

/-- `valid_account = account_age >= timedelta(days=ACCOUNT_MIN_AGE_DAYS)`,
with the account age given in whole days. -/
def computeValidAccount (ageDays : Nat) : Bool :=
  ACCOUNT_MIN_AGE_DAYS ≤ ageDays

/-! ### List-level table primitives -/

/-- `SELECT points FROM inviters WHERE user_id = ?`, defaulting to 0. -/
def pointsOf (l : List (Nat × Int)) (u : Nat) : Int :=
  match l.find? (fun p => p.1 == u) with
  | some p => p.2
  | none => 0

/-- Row update of `UPDATE inviters SET points = ? WHERE user_id = ?`. -/
def bumpRow (u : Nat) (a : Int) (p : Nat × Int) : Nat × Int :=
  if p.1 == u then (p.1, p.2 + a) else p

/-- The read-modify-write of `add_points`: update the existing row if one
exists, else insert a fresh row holding `amount`. -/
def addPointsList (l : List (Nat × Int)) (u : Nat) (amount : Int) : List (Nat × Int) :=
  match l.find? (fun p => p.1 == u) with
  | some _ => l.map (bumpRow u amount)
  | none => l ++ [(u, amount)]

/-- `SELECT ... FROM invite_map WHERE invitee_id = ?`. -/
def lookupRow (l : List InviteMapRow) (i : Nat) : Option InviteMapRow :=
  l.find? (fun r => r.invitee_id == i)

/-- Row update performed by `set_awarded_flags`: overwrite whichever
awarded flags are given, keep the rest of the row. -/
def updFlags (m s : Option Bool) (r : InviteMapRow) : InviteMapRow :=
  { r with members_awarded := m.getD r.members_awarded,
           striker_awarded := s.getD r.striker_awarded }

/-- Apply `updFlags` to the row of invitee `i`, keep other rows. -/
def flagRow (i : Nat) (m s : Option Bool) (r : InviteMapRow) : InviteMapRow :=
  if r.invitee_id == i then updFlags m s r else r

/-- The two optional `UPDATE invite_map SET ..._awarded = ?` statements of
`set_awarded_flags`, fused into one row update (they touch disjoint
columns of the same row). -/
def setFlagsList (l : List InviteMapRow) (i : Nat) (m s : Option Bool) : List InviteMapRow :=
  l.map (flagRow i m s)

/-! ### Helper functions of the source (section "HELPER FUNCTIONS") -/

/-- `get_inviter_points`: total points an inviter currently has. -/
def get_inviter_points (db : DB) (u : Nat) : Int :=
  pointsOf db.inviters u

/-- `add_points`: add or subtract points (log-channel side effects dropped). -/
def add_points (db : DB) (u : Nat) (amount : Int) : DB :=
  { db with inviters := addPointsList db.inviters u amount }

/-- `get_inviter_for_invitee`: the invitee's attribution row, if any. -/
def get_inviter_for_invitee (db : DB) (invitee : Nat) : Option InviteMapRow :=
  lookupRow db.invite_map invitee

/-- `set_invite_map`: UPDATE the existing row's inviter/valid/used_code
(keeping the awarded flags), or INSERT a fresh row with flags at their
column defaults (0). -/
def set_invite_map (db : DB) (invitee inviter : Nat) (valid : Bool) (code : Option String) : DB :=
  match lookupRow db.invite_map invitee with
  | some _ =>
    { db with invite_map := db.invite_map.map (fun r =>
        if r.invitee_id == invitee then
          { r with inviter_id := inviter, valid_account := valid, used_code := code }
        else r) }
  | none =>
    { db with invite_map := db.invite_map ++
        [{ invitee_id := invitee, inviter_id := inviter, members_awarded := false,
           striker_awarded := false, valid_account := valid, used_code := code }] }

/-- `set_awarded_flags`. -/
def set_awarded_flags (db : DB) (invitee : Nat) (m s : Option Bool) : DB :=
  { db with invite_map := setFlagsList db.invite_map invitee m s }

/-- `get_creator_by_code`: creator recorded in `invite_links`, if any. -/
def get_creator_by_code (links : List (String × Nat)) (code : String) : Option Nat :=
  (links.find? (fun p => p.1 == code)).map (fun p => p.2)

/-- `clear_all_points`: `DELETE FROM inviters`. -/
def clear_all_points (db : DB) : DB :=
  { db with inviters := [] }

/-! ### Leaderboard read path: `SELECT user_id, points FROM inviters
ORDER BY points DESC LIMIT n`, with ties left in table (insertion) order. -/

/-- Insert one row into a points-descending list, before the first row
with at most as many points; the inserted row precedes the tail rows it
ties with, so sorting row by row keeps ties in table order. -/
def insertByPointsDesc (x : Nat × Int) : List (Nat × Int) → List (Nat × Int)
  | [] => [x]
  | y :: ys => if y.2 ≤ x.2 then x :: y :: ys else y :: insertByPointsDesc x ys

/-- Stable sort of the `inviters` table, descending by points. -/
def sortByPointsDesc : List (Nat × Int) → List (Nat × Int)
  | [] => []
  | x :: xs => insertByPointsDesc x (sortByPointsDesc xs)

/-- `top_n_inviters`. -/
def top_n_inviters (db : DB) (n : Nat) : List (Nat × Int) :=
  (sortByPointsDesc db.inviters).take n

/-- `full_monthly_reset`: DELETE FROM all four tables. -/
def full_monthly_reset (_db : DB) : DB :=
  { inviters := [], invite_links := [], invite_map := [], invite_history := [] }

/-- The body of the scheduled reset (`monthly_reset_check` at the trigger
minute, likewise `/testreset`): read the top 10 for the report, then wipe.
The e-mail side of the report is I/O and carries no database state. -/
def run_monthly_reset (db : DB) : List (Nat × Int) × DB :=
  (top_n_inviters db 10, full_monthly_reset db)

/-! ### Attribution resolution (inline loop in `on_member_join`) -/

/-- `before_cache.get(inv.code, 0)`: cached use count, missing codes count 0. -/
def cacheGet (cache : List (String × Nat)) (code : String) : Nat :=
  match cache.find? (fun p => p.1 == code) with
  | some p => p.2
  | none => 0

/-- Python truthiness of an optional integer: `None` and `0` are falsy. -/
def pyTruthy (o : Option Nat) : Bool :=
  match o with
  | some v => v != 0
  | none => false

/-- Python `a or b` on optional integers. -/
def pyOrOpt (a b : Option Nat) : Option Nat :=
  if pyTruthy a then a else b

/-- The `for inv in invites_after` loop of `on_member_join`: the first
invite whose use count strictly exceeds its cached value determines
`used_code` and `used_inviter = creator_id or platform owner`; `none` when
no invite shows an increase. -/
def resolveInvite (links before : List (String × Nat)) : List Invite → Option (String × Option Nat)
  | [] => none
  | inv :: rest =>
    if cacheGet before inv.code < inv.uses then
      some (inv.code, pyOrOpt (get_creator_by_code links inv.code) inv.inviter)
    else resolveInvite links before rest

/-! ### Award engine (role branches shared by `on_member_update`) -/

/-- The two award kinds: the "Members" role (weight 1) and the "Striker"
role (weight 2). -/
inductive RoleKind where
  | members
  | striker
deriving DecidableEq, Repr

/-- The awarded flag of a row for a kind. -/
def kindFlag : RoleKind → InviteMapRow → Bool
  | .members, r => r.members_awarded
  | .striker, r => r.striker_awarded

/-- The point weight of a kind. -/
def kindWeight : RoleKind → Int
  | .members => 1
  | .striker => 2

/-- Overwrite the awarded flag of a row for a kind. -/
def setRowFlag : RoleKind → InviteMapRow → Bool → InviteMapRow
  | .members, r, v => { r with members_awarded := v }
  | .striker, r, v => { r with striker_awarded := v }

/-- `set_awarded_flags` specialised to one kind, as each call site uses it. -/
def setKindFlag (k : RoleKind) (db : DB) (invitee : Nat) (v : Bool) : DB :=
  match k with
  | .members => set_awarded_flags db invitee (some v) none
  | .striker => set_awarded_flags db invitee none (some v)

/-- `added = after_roles - before_roles` membership test of the handler. -/
def roleGained (beforeRoles afterRoles : List Nat) (rid : Nat) : Bool :=
  afterRoles.contains rid && !(beforeRoles.contains rid)

/-- `removed = before_roles - after_roles` membership test of the handler. -/
def roleLost (beforeRoles afterRoles : List Nat) (rid : Nat) : Bool :=
  beforeRoles.contains rid && !(afterRoles.contains rid)

/-- One role block of `on_member_update` (the source repeats this block
verbatim for Members with weight 1 and Striker with weight 2): gain the
role while not awarded ⇒ `+weight` and set the flag; lose it while
awarded ⇒ `-weight` and clear the flag; otherwise no-op.  `rec` is the
attribution row read once at the top of the handler. -/
def update_branch (k : RoleKind) (roleOpt : Option Nat) (rec : InviteMapRow)
    (db : DB) (memberId : Nat) (beforeRoles afterRoles : List Nat) : DB :=
  match roleOpt with
  | none => db
  | some rid =>
    if roleGained beforeRoles afterRoles rid && !(kindFlag k rec) then
      setKindFlag k (add_points db rec.inviter_id (kindWeight k)) memberId true
    else if roleLost beforeRoles afterRoles rid && kindFlag k rec then
      setKindFlag k (add_points db rec.inviter_id (-(kindWeight k))) memberId false
    else db

/-- The value of the kind's awarded flag after one role block of
`on_member_update` has run on a row whose flag agrees with `rec`'s. -/
def branchNewFlag (k : RoleKind) (roleOpt : Option Nat) (rec : InviteMapRow)
    (beforeRoles afterRoles : List Nat) : Bool :=
  match roleOpt with
  | none => kindFlag k rec
  | some rid =>
    if roleGained beforeRoles afterRoles rid then true
    else if roleLost beforeRoles afterRoles rid then false
    else kindFlag k rec

/-- The attribution row after a full `on_member_update` event on row `rec`
(both blocks gate on the flags of the initially read `rec`). -/
def eventNewRec (g : Guild) (rec : InviteMapRow) (beforeRoles afterRoles : List Nat) :
    InviteMapRow :=
  setRowFlag .striker
    (setRowFlag .members rec (branchNewFlag .members g.members_role rec beforeRoles afterRoles))
    (branchNewFlag .striker g.striker_role rec beforeRoles afterRoles)

/-! ### Member event handlers -/

/-- `on_member_join`, as a function of the guild roles, the database, the
joining member (id, account age, roles already held), the cached invite
snapshot and the freshly fetched invite list.  Returns the new database
and the new cache (the cache refresh is unconditional). -/
def on_member_join (g : Guild) (db : DB) (memberId ageDays : Nat)
    (memberRoles : List Nat) (beforeCache : List (String × Nat))
    (invitesAfter : List Invite) : DB × List (String × Nat) :=
  let valid := computeValidAccount ageDays
  let res := resolveInvite db.invite_links beforeCache invitesAfter
  let newCache := invitesAfter.map (fun i => (i.code, i.uses))
  let used_inviter : Option Nat :=
    match res with
    | some (_, oi) => oi
    | none => none
  let used_code : Option String :=
    match res with
    | some (c, _) => some c
    | none => none
  if pyTruthy used_inviter then
    let inviter := used_inviter.getD 0
    let db1 := set_invite_map db memberId inviter valid used_code
    let db2 :=
      match g.members_role with
      | some rid =>
        if memberRoles.contains rid then
          match get_inviter_for_invitee db1 memberId with
          | some rec =>
            if !rec.members_awarded then
              set_awarded_flags (add_points db1 inviter 1) memberId (some true) none
            else db1
          | none => db1
        else db1
      | none => db1
    let db3 :=
      match g.striker_role with
      | some rid =>
        if memberRoles.contains rid then
          match get_inviter_for_invitee db2 memberId with
          | some rec =>
            if !rec.striker_awarded then
              set_awarded_flags (add_points db2 inviter 2) memberId none (some true)
            else db2
          | none => db2
        else db2
      | none => db2
    (db3, newCache)
  else (db, newCache)

/-- `on_member_update`, as a function of the before/after role id sets. -/
def on_member_update (g : Guild) (db : DB) (memberId : Nat)
    (beforeRoles afterRoles : List Nat) : DB :=
  match get_inviter_for_invitee db memberId with
  | none => db
  | some rec =>
    if !rec.valid_account then db
    else
      let db1 := update_branch .members g.members_role rec db memberId beforeRoles afterRoles
      update_branch .striker g.striker_role rec db1 memberId beforeRoles afterRoles

/-- `on_member_remove`: revoke outstanding awards and delete the
attribution row — but only when a row exists and `valid_account` is set
(the guard returns early otherwise, skipping even the row deletion). -/
def on_member_remove (db : DB) (memberId : Nat) : DB :=
  match get_inviter_for_invitee db memberId with
  | none => db
  | some rec =>
    if !rec.valid_account then db
    else
      let db1 :=
        if rec.members_awarded then
          set_awarded_flags (add_points db rec.inviter_id (-1)) memberId (some false) none
        else db
      let db2 :=
        if rec.striker_awarded then
          set_awarded_flags (add_points db1 rec.inviter_id (-2)) memberId none (some false)
        else db1
      { db2 with invite_map := db2.invite_map.filter (fun r => r.invitee_id != memberId) }

/-- The `/removepoints` admin command body: subtract points from the
target member's recorded inviter; `false` when no attribution exists
("Could not find inviter for this user"). -/
def removepoints (db : DB) (memberId : Nat) (points : Int) : DB × Bool :=
  match get_inviter_for_invitee db memberId with
  | some rec => (add_points db rec.inviter_id (-points), true)
  | none => (db, false)

/-- A sequence of `MemberRoleSetChanged` events for one invitee, each a
(before, after) pair of role id lists, folded through `on_member_update`. -/
def process_events (g : Guild) (memberId : Nat) (db : DB)
    (events : List (List Nat × List Nat)) : DB :=
  events.foldl (fun d e => on_member_update g d memberId e.1 e.2) db

/-! ### Basic store lemmas -/

theorem bumpRow_of_eq (u : Nat) (a : Int) (p : Nat × Int) (h : p.1 = u) :
    bumpRow u a p = (p.1, p.2 + a) := by simp [bumpRow, h]

theorem bumpRow_of_ne (u : Nat) (a : Int) (p : Nat × Int) (h : ¬ p.1 = u) :
    bumpRow u a p = p := by simp [bumpRow, h]

theorem pointsOf_nil (u : Nat) : pointsOf [] u = 0 := rfl

theorem pointsOf_cons (p : Nat × Int) (l : List (Nat × Int)) (u : Nat) :
    pointsOf (p :: l) u = if p.1 = u then p.2 else pointsOf l u := by
  by_cases h : p.1 = u <;> simp [pointsOf, List.find?_cons, h]

theorem pointsOf_eq_zero (l : List (Nat × Int)) (u : Nat)
    (h : l.find? (fun p => p.1 == u) = none) : pointsOf l u = 0 := by
  simp [pointsOf, h]

theorem find?_cons_key (p : Nat × Int) (t : List (Nat × Int)) (u : Nat) :
    ((p :: t).find? (fun q => q.1 == u))
      = if p.1 = u then some p else t.find? (fun q => q.1 == u) := by
  by_cases h : p.1 = u <;> simp [List.find?_cons, h]

theorem pointsOf_map_bump_self (l : List (Nat × Int)) (u : Nat) (a : Int)
    (h : (l.find? (fun p => p.1 == u)).isSome) :
    pointsOf (l.map (bumpRow u a)) u = pointsOf l u + a := by
  induction l with
  | nil => simp at h
  | cons p t ih =>
    rw [find?_cons_key] at h
    simp only [List.map_cons]
    rw [pointsOf_cons, pointsOf_cons]
    by_cases hk : p.1 = u
    · rw [bumpRow_of_eq u a p hk]
      simp [hk]
    · rw [bumpRow_of_ne u a p hk, if_neg hk, if_neg hk]
      rw [if_neg hk] at h
      exact ih h

theorem pointsOf_append_absent (l : List (Nat × Int)) (u : Nat) (a : Int)
    (h : l.find? (fun p => p.1 == u) = none) :
    pointsOf (l ++ [(u, a)]) u = a := by
  induction l with
  | nil => simp [pointsOf_cons]
  | cons p t ih =>
    rw [find?_cons_key] at h
    by_cases hk : p.1 = u
    · rw [if_pos hk] at h
      exact absurd h (by simp)
    · rw [if_neg hk] at h
      rw [List.cons_append, pointsOf_cons, if_neg hk]
      exact ih h

theorem pointsOf_addPointsList_self (l : List (Nat × Int)) (u : Nat) (a : Int) :
    pointsOf (addPointsList l u a) u = pointsOf l u + a := by
  simp only [addPointsList]
  split
  next w hw => exact pointsOf_map_bump_self l u a (by simp [hw])
  next hw => rw [pointsOf_append_absent l u a hw, pointsOf_eq_zero l u hw]; ring

theorem pointsOf_map_bump_ne (l : List (Nat × Int)) (u v : Nat) (a : Int)
    (hvu : v ≠ u) :
    pointsOf (l.map (bumpRow u a)) v = pointsOf l v := by
  induction l with
  | nil => simp
  | cons p t ih =>
    simp only [List.map_cons]
    rw [pointsOf_cons, pointsOf_cons]
    by_cases hk : p.1 = u
    · have hkv : ¬ p.1 = v := by rw [hk]; exact fun he => hvu he.symm
      rw [bumpRow_of_eq u a p hk, if_neg hkv]
      have h2 : ¬ ((p.1, p.2 + a) : Nat × Int).1 = v := hkv
      rw [if_neg h2]
      exact ih
    · rw [bumpRow_of_ne u a p hk]
      by_cases hkv : p.1 = v
      · rw [if_pos hkv, if_pos hkv]
      · rw [if_neg hkv, if_neg hkv]
        exact ih

theorem pointsOf_addPointsList_ne (l : List (Nat × Int)) (u v : Nat) (a : Int)
    (hvu : v ≠ u) : pointsOf (addPointsList l u a) v = pointsOf l v := by
  simp only [addPointsList]
  split
  next w hw => exact pointsOf_map_bump_ne l u v a hvu
  next hw =>
    rw [pointsOf, List.find?_append]
    have h2 : ([(u, a)].find? (fun p => p.1 == v)) = none := by
      have hb : (u == v) = false := beq_eq_false_iff_ne.mpr (fun he => hvu he.symm)
      simp [List.find?, hb]
    rw [h2, Option.or_none, pointsOf]

theorem updFlags_invitee_id (m s : Option Bool) (r : InviteMapRow) :
    (updFlags m s r).invitee_id = r.invitee_id := rfl

theorem flagRow_of_eq (i : Nat) (m s : Option Bool) (r : InviteMapRow)
    (h : r.invitee_id = i) : flagRow i m s r = updFlags m s r := by
  simp [flagRow, h]

theorem flagRow_of_ne (i : Nat) (m s : Option Bool) (r : InviteMapRow)
    (h : ¬ r.invitee_id = i) : flagRow i m s r = r := by
  simp [flagRow, h]

theorem lookupRow_cons (r : InviteMapRow) (l : List InviteMapRow) (i : Nat) :
    lookupRow (r :: l) i = if r.invitee_id = i then some r else lookupRow l i := by
  by_cases h : r.invitee_id = i <;> simp [lookupRow, List.find?_cons, h]

theorem lookupRow_setFlagsList_self (l : List InviteMapRow) (i : Nat)
    (m s : Option Bool) (rec : InviteMapRow) (h : lookupRow l i = some rec) :
    lookupRow (setFlagsList l i m s) i = some (updFlags m s rec) := by
  induction l with
  | nil => simp [lookupRow] at h
  | cons r t ih =>
    rw [lookupRow_cons] at h
    simp only [setFlagsList, List.map_cons]
    rw [lookupRow_cons]
    by_cases hk : r.invitee_id = i
    · rw [if_pos hk] at h
      cases h
      rw [flagRow_of_eq i m s rec hk, updFlags_invitee_id, if_pos hk]
    · rw [if_neg hk] at h
      rw [flagRow_of_ne i m s r hk, if_neg hk]
      exact ih h

theorem lookupRow_filter_out (l : List InviteMapRow) (i : Nat) :
    lookupRow (l.filter (fun r => r.invitee_id != i)) i = none := by
  rw [lookupRow, List.find?_eq_none]
  intro x hx
  have h2 := (List.mem_filter.mp hx).2
  simp only [bne_iff_ne, ne_eq] at h2
  simpa using h2

/-! DB-level frame facts (which tables each helper touches). -/

theorem invite_map_add_points (db : DB) (u : Nat) (a : Int) :
    (add_points db u a).invite_map = db.invite_map := rfl

theorem inviters_set_awarded_flags (db : DB) (i : Nat) (m s : Option Bool) :
    (set_awarded_flags db i m s).inviters = db.inviters := rfl

theorem get_points_add_points_self (db : DB) (u : Nat) (a : Int) :
    get_inviter_points (add_points db u a) u = get_inviter_points db u + a :=
  pointsOf_addPointsList_self db.inviters u a

theorem get_points_add_points_ne (db : DB) (u v : Nat) (a : Int) (h : v ≠ u) :
    get_inviter_points (add_points db u a) v = get_inviter_points db v :=
  pointsOf_addPointsList_ne db.inviters u v a h

theorem get_points_set_awarded_flags (db : DB) (i : Nat) (m s : Option Bool) (u : Nat) :
    get_inviter_points (set_awarded_flags db i m s) u = get_inviter_points db u := rfl

theorem lookup_add_points (db : DB) (u : Nat) (a : Int) (i : Nat) :
    get_inviter_for_invitee (add_points db u a) i = get_inviter_for_invitee db i := rfl

theorem lookup_set_awarded_flags_self (db : DB) (i : Nat) (m s : Option Bool)
    (rec : InviteMapRow) (h : get_inviter_for_invitee db i = some rec) :
    get_inviter_for_invitee (set_awarded_flags db i m s) i = some (updFlags m s rec) :=
  lookupRow_setFlagsList_self db.invite_map i m s rec h

/-! ### Claim C7 and C8: reset behaviour -/

/-- Claim C7: from every state, running the monthly reset and then
immediately querying yields an empty leaderboard and zero points for
every user. -/
theorem C7_reset_round_trip (db : DB) (u : Nat) :
    top_n_inviters (run_monthly_reset db).2 10 = [] ∧
    get_inviter_points (run_monthly_reset db).2 u = 0 :=
  ⟨rfl, rfl⟩

/-- Claim C8: the admin reset (`clear_all_points`, behind `/reset`) zeroes
every user's point total and leaves the invite-link store, the
attribution store (award flags included) and the append history
unchanged. -/
theorem C8_clear_points_frame (db : DB) (u : Nat) :
    get_inviter_points (clear_all_points db) u = 0 ∧
    (clear_all_points db).invite_links = db.invite_links ∧
    (clear_all_points db).invite_map = db.invite_map ∧
    (clear_all_points db).invite_history = db.invite_history :=
  ⟨rfl, rfl, rfl, rfl⟩

/-! ### Claim C1: the join-time award path ignores `valid_account` -/

/-- Claim C1 is violated by the code: an invitee whose account is 5 days
old (so `valid_account = false`, stored as such in the created
AttributionRecord) joins holding the Members role via a tracked invite,
and `on_member_join` still credits the inviter one point — the join-time
award block never consults `valid_account`, unlike `on_member_update`
and `on_member_remove`. -/
theorem C1_invalid_account_awarded_on_join :
    computeValidAccount 5 = false ∧
    get_inviter_for_invitee
      ((on_member_join ⟨some 10, some 20⟩ ⟨[], [("abc", 1)], [], []⟩
          2 5 [10] [("abc", 0)] [⟨"abc", 1, none⟩]).1) 2
      = some ⟨2, 1, true, false, false, some "abc"⟩ ∧
    get_inviter_points
      ((on_member_join ⟨some 10, some 20⟩ ⟨[], [("abc", 1)], [], []⟩
          2 5 [10] [("abc", 0)] [⟨"abc", 1, none⟩]).1) 1 = 1 := by
  decide

/-! ### Claim C4: leave handling -/

/-- Claim C4 as stated is false: for an AttributionRecord with
`valid_account = false` the leave handler returns before the deletion, so
the record survives the leave (and outstanding credit, here from the
unguarded join-time award, is not revoked). -/
theorem C4_counterexample :
    get_inviter_for_invitee
      (⟨[(1, 1)], [], [⟨2, 1, true, false, false, none⟩], []⟩ : DB) 2 ≠ none ∧
    on_member_remove (⟨[(1, 1)], [], [⟨2, 1, true, false, false, none⟩], []⟩ : DB) 2
      = ⟨[(1, 1)], [], [⟨2, 1, true, false, false, none⟩], []⟩ ∧
    get_inviter_for_invitee
      (on_member_remove
        (⟨[(1, 1)], [], [⟨2, 1, true, false, false, none⟩], []⟩ : DB) 2) 2 ≠ none := by
  decide

/-- Claim C4 amended to invitees whose record has `valid_account = true`:
the leave event debits the inviter by the weight of each kind whose
awarded flag is set and deletes the AttributionRecord, so afterwards no
record exists for the invitee and no outstanding credit remains. -/
theorem C4_leave_revokes_and_deletes (db : DB) (m : Nat) (rec : InviteMapRow)
    (hrec : get_inviter_for_invitee db m = some rec)
    (hvalid : rec.valid_account = true) :
    get_inviter_for_invitee (on_member_remove db m) m = none ∧
    get_inviter_points (on_member_remove db m) rec.inviter_id
      = get_inviter_points db rec.inviter_id
        - ((if rec.members_awarded then 1 else 0)
            + (if rec.striker_awarded then 2 else 0)) := by
  have hbody : on_member_remove db m =
      (let db1 :=
        if rec.members_awarded then
          set_awarded_flags (add_points db rec.inviter_id (-1)) m (some false) none
        else db
      let db2 :=
        if rec.striker_awarded then
          set_awarded_flags (add_points db1 rec.inviter_id (-2)) m none (some false)
        else db1
      { db2 with invite_map := db2.invite_map.filter (fun r => r.invitee_id != m) }) := by
    unfold on_member_remove
    rw [hrec]
    simp [hvalid]
  rw [hbody]
  constructor
  · exact lookupRow_filter_out _ m
  · cases hm : rec.members_awarded <;> cases hs : rec.striker_awarded <;>
      simp [hm, hs, get_inviter_points, add_points, inviters_set_awarded_flags,
        pointsOf_addPointsList_self] <;> omega

/-- Witness for `C4_leave_revokes_and_deletes` at a concrete state. -/
theorem C4_leave_witness :
    get_inviter_for_invitee
      (on_member_remove (⟨[(1, 3)], [], [⟨2, 1, true, true, true, none⟩], []⟩ : DB) 2) 2
      = none ∧
    get_inviter_points
      (on_member_remove (⟨[(1, 3)], [], [⟨2, 1, true, true, true, none⟩], []⟩ : DB) 2) 1
      = get_inviter_points (⟨[(1, 3)], [], [⟨2, 1, true, true, true, none⟩], []⟩ : DB) 1
        - ((if (true : Bool) then 1 else 0) + (if (true : Bool) then 2 else 0)) :=
  C4_leave_revokes_and_deletes
    ⟨[(1, 3)], [], [⟨2, 1, true, true, true, none⟩], []⟩ 2
    ⟨2, 1, true, true, true, none⟩ (by decide) (by decide)

/-! ### Claim C5: unresolved attribution is inert -/

/-- Claim C5: when attribution resolution fails — either no invite shows a
use-count increase (`resolveInvite = none`), or an invite was consumed
but neither a stored creator nor a platform-reported owner exists for it
(`resolveInvite = some (code, none)`) — the join event creates no
AttributionRecord and mutates no ledger entry (the whole database is
unchanged); and role-change events for an invitee without an
AttributionRecord are complete no-ops. -/
theorem C5_no_attribution_inert (g : Guild) (db : DB) (m age : Nat)
    (roles : List Nat) (cache : List (String × Nat)) (after : List Invite)
    (b a : List Nat) (u : Nat) :
    (resolveInvite db.invite_links cache after = none →
      (on_member_join g db m age roles cache after).1 = db) ∧
    (∀ code, resolveInvite db.invite_links cache after = some (code, none) →
      (on_member_join g db m age roles cache after).1 = db) ∧
    (get_inviter_for_invitee db u = none →
      on_member_update g db u b a = db) := by
  refine ⟨?_, ?_, ?_⟩
  · intro h
    simp [on_member_join, h, pyTruthy]
  · intro code h
    simp [on_member_join, h, pyTruthy]
  · intro h
    simp [on_member_update, h]

/-- Witness for `C5_no_attribution_inert` at concrete states: an empty
invite list (no use-count increase), a consumed invite with no stored
creator and no platform owner, and a role event for an unattributed
invitee. -/
theorem C5_witness :
    ((on_member_join ⟨none, none⟩ ⟨[], [], [], []⟩ 1 40 [] [] []).1
      = (⟨[], [], [], []⟩ : DB)) ∧
    ((on_member_join ⟨none, none⟩ ⟨[], [], [], []⟩ 1 40 [] [] [⟨"xyz", 1, none⟩]).1
      = (⟨[], [], [], []⟩ : DB)) ∧
    (on_member_update ⟨none, none⟩ ⟨[], [], [], []⟩ 1 [] []
      = (⟨[], [], [], []⟩ : DB)) := by
  have h := C5_no_attribution_inert ⟨none, none⟩ ⟨[], [], [], []⟩ 1 40 [] [] [] [] [] 1
  have h2 := C5_no_attribution_inert ⟨none, none⟩ ⟨[], [], [], []⟩ 1 40 [] []
    [⟨"xyz", 1, none⟩] [] [] 1
  exact ⟨h.1 rfl, h2.2.1 "xyz" (by decide), h.2.2 rfl⟩

/-! ### Claim C10: `/removepoints` targets the inviter -/

/-- Claim C10: `/removepoints member p` looks up the member's
AttributionRecord; when one exists it subtracts `p` from the recorded
inviter's total (and, when the member is not their own inviter, leaves
the member's own total unchanged); when none exists the database is
unchanged and failure is reported. -/
theorem C10_removepoints_targets_inviter (db : DB) (m : Nat) (p : Int) :
    (∀ rec, get_inviter_for_invitee db m = some rec →
      removepoints db m p = (add_points db rec.inviter_id (-p), true) ∧
      get_inviter_points (removepoints db m p).1 rec.inviter_id
        = get_inviter_points db rec.inviter_id - p ∧
      (rec.inviter_id ≠ m →
        get_inviter_points (removepoints db m p).1 m = get_inviter_points db m)) ∧
    (get_inviter_for_invitee db m = none → removepoints db m p = (db, false)) := by
  constructor
  · intro rec hrec
    have he : removepoints db m p = (add_points db rec.inviter_id (-p), true) := by
      unfold removepoints
      rw [hrec]
    refine ⟨he, ?_, ?_⟩
    · rw [he]
      show get_inviter_points (add_points db rec.inviter_id (-p)) rec.inviter_id = _
      have h2 := get_points_add_points_self db rec.inviter_id (-p)
      omega
    · intro hne
      rw [he]
      exact get_points_add_points_ne db rec.inviter_id m (-p) (fun h2 => hne h2.symm)
  · intro hn
    unfold removepoints
    rw [hn]

/-- Witness for `C10_removepoints_targets_inviter` at a concrete state. -/
theorem C10_witness :
    (removepoints (⟨[(1, 5)], [], [⟨2, 1, false, false, true, none⟩], []⟩ : DB) 2 3
      = (add_points ⟨[(1, 5)], [], [⟨2, 1, false, false, true, none⟩], []⟩ 1 (-3), true)) ∧
    get_inviter_points
      ((removepoints (⟨[(1, 5)], [], [⟨2, 1, false, false, true, none⟩], []⟩ : DB) 2 3).1) 1
      = get_inviter_points (⟨[(1, 5)], [], [⟨2, 1, false, false, true, none⟩], []⟩ : DB) 1 - 3 ∧
    get_inviter_points
      ((removepoints (⟨[(1, 5)], [], [⟨2, 1, false, false, true, none⟩], []⟩ : DB) 2 3).1) 2
      = get_inviter_points (⟨[(1, 5)], [], [⟨2, 1, false, false, true, none⟩], []⟩ : DB) 2 := by
  have h :=
    (C10_removepoints_targets_inviter
        ⟨[(1, 5)], [], [⟨2, 1, false, false, true, none⟩], []⟩ 2 3).1
      ⟨2, 1, false, false, true, none⟩ (by decide)
  exact ⟨h.1, h.2.1, h.2.2 (by decide)⟩

/-! ### Claim C3: attribution resolution -/

/-- Spec-side resolver for claim C3, written from the spec's words: select
the first invite in list order whose use count strictly exceeds its
before-snapshot value (a code missing from the snapshot counts as 0);
resolve the inviter as the creator stored in the invite-link store for
that code if one exists, otherwise the platform-reported invite owner if
present, otherwise none; the result is none when no invite shows a strict
increase. -/
def resolveSpec (links before : List (String × Nat)) (after : List Invite) :
    Option (String × Option Nat) :=
  match after.find? (fun inv => decide (cacheGet before inv.code < inv.uses)) with
  | none => none
  | some inv =>
    some (inv.code,
      match get_creator_by_code links inv.code with
      | some c => some c
      | none => inv.inviter)

/-- Claim C3: the resolution loop of `on_member_join` agrees with the
spec's description, for every invite-link store whose recorded creators
are genuine (nonzero) platform user ids.  (Python's `creator_id or ...`
would treat a stored creator id 0 as absent, but creator ids are always
taken from real user ids.) -/
theorem C3_resolution (links before : List (String × Nat)) (after : List Invite)
    (h : ∀ pr ∈ links, pr.2 ≠ 0) :
    resolveInvite links before after = resolveSpec links before after := by
  induction after with
  | nil => rfl
  | cons inv rest ih =>
    by_cases hinc : cacheGet before inv.code < inv.uses
    · have hp : (fun i => decide (cacheGet before i.code < i.uses)) inv = true := by
        simp [hinc]
      simp only [resolveInvite, resolveSpec, List.find?_cons, hp, if_pos hinc]
      cases hc : get_creator_by_code links inv.code with
      | none => simp [pyOrOpt, pyTruthy, hc]
      | some c =>
        have hcne : c ≠ 0 := by
          unfold get_creator_by_code at hc
          cases hf : links.find? (fun p => p.1 == inv.code) with
          | none =>
            rw [hf] at hc
            simp at hc
          | some pr =>
            rw [hf] at hc
            simp at hc
            have h2 := h pr (List.mem_of_find?_eq_some hf)
            omega
        simp [pyOrOpt, pyTruthy, hc, hcne]
    · have hp : (fun i => decide (cacheGet before i.code < i.uses)) inv = false := by
        simp [hinc]
      have hr : resolveSpec links before (inv :: rest) = resolveSpec links before rest := by
        simp only [resolveSpec, List.find?_cons, hp]
      have hl : resolveInvite links before (inv :: rest) = resolveInvite links before rest := by
        simp only [resolveInvite, if_neg hinc]
      rw [hl, hr]
      exact ih

/-- Witness for `C3_resolution` at a concrete input. -/
theorem C3_witness :
    resolveInvite [("abc", 7)] [] [⟨"abc", 1, none⟩]
      = resolveSpec [("abc", 7)] [] [⟨"abc", 1, none⟩] :=
  C3_resolution [("abc", 7)] [] [⟨"abc", 1, none⟩] (by decide)

/-! ### Claim C9: the leaderboard read path -/

theorem insertByPointsDesc_perm (x : Nat × Int) (l : List (Nat × Int)) :
    List.Perm (insertByPointsDesc x l) (x :: l) := by
  induction l with
  | nil => exact List.Perm.refl _
  | cons y ys ih =>
    rw [insertByPointsDesc]
    by_cases h : y.2 ≤ x.2
    · rw [if_pos h]
    · rw [if_neg h]
      exact (ih.cons y).trans (List.Perm.swap x y ys)

theorem sortByPointsDesc_perm (l : List (Nat × Int)) :
    List.Perm (sortByPointsDesc l) l := by
  induction l with
  | nil => exact List.Perm.refl _
  | cons x xs ih =>
    simp only [sortByPointsDesc]
    exact (insertByPointsDesc_perm x _).trans (ih.cons x)

theorem insertByPointsDesc_pairwise (x : Nat × Int) (l : List (Nat × Int))
    (hl : l.Pairwise (fun a b => b.2 ≤ a.2)) :
    (insertByPointsDesc x l).Pairwise (fun a b => b.2 ≤ a.2) := by
  induction l with
  | nil => simp [insertByPointsDesc]
  | cons y ys ih =>
    obtain ⟨hy, hys⟩ := List.pairwise_cons.mp hl
    rw [insertByPointsDesc]
    by_cases h : y.2 ≤ x.2
    · rw [if_pos h]
      refine List.pairwise_cons.mpr ⟨?_, hl⟩
      intro z hz
      rcases List.mem_cons.mp hz with hz | hz
      · rw [hz]
        exact h
      · exact le_trans (hy z hz) h
    · rw [if_neg h]
      refine List.pairwise_cons.mpr ⟨?_, ih hys⟩
      intro z hz
      have hz2 : z ∈ x :: ys := (insertByPointsDesc_perm x ys).mem_iff.mp hz
      rcases List.mem_cons.mp hz2 with hz3 | hz3
      · rw [hz3]
        exact le_of_not_le h
      · exact hy z hz3

theorem sortByPointsDesc_pairwise (l : List (Nat × Int)) :
    (sortByPointsDesc l).Pairwise (fun a b => b.2 ≤ a.2) := by
  induction l with
  | nil => simp [sortByPointsDesc]
  | cons x xs ih =>
    simp only [sortByPointsDesc]
    exact insertByPointsDesc_pairwise x _ ih

/-- Claim C9: `top_n_inviters` returns the ledger entries sorted
descending by points (the sorted table is a permutation of the ledger),
with exactly `min n (number of entries)` pairs; it is a pure function of
the ledger state, hence deterministic.  The last conjunct instantiates
the claim's example: 10 requested, 3 entries, exactly 3 returned (ties
kept in table order). -/
theorem C9_topn_sorted_length (db : DB) (n : Nat) :
    (top_n_inviters db n).Pairwise (fun a b => b.2 ≤ a.2) ∧
    (top_n_inviters db n).length = min n db.inviters.length ∧
    List.Perm (sortByPointsDesc db.inviters) db.inviters ∧
    top_n_inviters ⟨[(1, 5), (2, 9), (3, 5)], [], [], []⟩ 10
      = [(2, 9), (1, 5), (3, 5)] := by
  refine ⟨?_, ?_, sortByPointsDesc_perm _, by decide⟩
  · exact (sortByPointsDesc_pairwise db.inviters).sublist (List.take_sublist _ _)
  · rw [top_n_inviters, List.length_take,
      (sortByPointsDesc_perm db.inviters).length_eq]

/-! ### Award-engine step lemmas (towards claims C2 and C6) -/

theorem roleGained_not_lost (b a : List Nat) (rid : Nat)
    (h : roleGained b a rid = true) : roleLost b a rid = false := by
  simp only [roleGained, Bool.and_eq_true, Bool.not_eq_true'] at h
  unfold roleLost
  rw [h.2]
  exact Bool.false_and _

theorem roleLost_not_gained (b a : List Nat) (rid : Nat)
    (h : roleLost b a rid = true) : roleGained b a rid = false := by
  simp only [roleLost, Bool.and_eq_true, Bool.not_eq_true'] at h
  unfold roleGained
  rw [h.2]
  exact Bool.false_and _

theorem kindFlag_setRowFlag_same (k : RoleKind) (rec : InviteMapRow) (v : Bool) :
    kindFlag k (setRowFlag k rec v) = v := by
  cases k <;> rfl

theorem setRowFlag_self_eta (k : RoleKind) (rec : InviteMapRow) :
    setRowFlag k rec (kindFlag k rec) = rec := by
  cases k <;> rfl

theorem setRowFlag_inviter_id (k : RoleKind) (rec : InviteMapRow) (v : Bool) :
    (setRowFlag k rec v).inviter_id = rec.inviter_id := by
  cases k <;> rfl

theorem setRowFlag_valid (k : RoleKind) (rec : InviteMapRow) (v : Bool) :
    (setRowFlag k rec v).valid_account = rec.valid_account := by
  cases k <;> rfl

theorem lookup_setKindFlag_self (k : RoleKind) (db : DB) (i : Nat) (v : Bool)
    (rec : InviteMapRow) (h : get_inviter_for_invitee db i = some rec) :
    get_inviter_for_invitee (setKindFlag k db i v) i = some (setRowFlag k rec v) := by
  cases k
  · exact lookup_set_awarded_flags_self db i (some v) none rec h
  · exact lookup_set_awarded_flags_self db i none (some v) rec h

theorem points_setKindFlag (k : RoleKind) (db : DB) (i : Nat) (v : Bool) (u : Nat) :
    get_inviter_points (setKindFlag k db i v) u = get_inviter_points db u := by
  cases k <;> rfl

theorem eventNewRec_inviter_id (g : Guild) (rec : InviteMapRow) (b a : List Nat) :
    (eventNewRec g rec b a).inviter_id = rec.inviter_id := rfl

theorem eventNewRec_valid (g : Guild) (rec : InviteMapRow) (b a : List Nat) :
    (eventNewRec g rec b a).valid_account = rec.valid_account := rfl

theorem eventNewRec_members (g : Guild) (rec : InviteMapRow) (b a : List Nat) :
    (eventNewRec g rec b a).members_awarded
      = branchNewFlag .members g.members_role rec b a := rfl

theorem eventNewRec_striker (g : Guild) (rec : InviteMapRow) (b a : List Nat) :
    (eventNewRec g rec b a).striker_awarded
      = branchNewFlag .striker g.striker_role rec b a := rfl

/-- One role block, applied to a database whose row for the invitee has
the same flag for kind `k` as the gating row `rec`: afterwards the row's
`k`-flag is `branchNewFlag`, and the inviter's points move by exactly the
weight times the flag change. -/
theorem update_branch_step (k : RoleKind) (roleOpt : Option Nat)
    (rec recDb : InviteMapRow) (db : DB) (m : Nat) (b a : List Nat)
    (hrec : get_inviter_for_invitee db m = some recDb)
    (hflag : kindFlag k recDb = kindFlag k rec) :
    get_inviter_for_invitee (update_branch k roleOpt rec db m b a) m
        = some (setRowFlag k recDb (branchNewFlag k roleOpt rec b a)) ∧
    get_inviter_points (update_branch k roleOpt rec db m b a) rec.inviter_id
        = get_inviter_points db rec.inviter_id
          + kindWeight k * (b2i (branchNewFlag k roleOpt rec b a) - b2i (kindFlag k rec)) := by
  cases roleOpt with
  | none =>
    have hb : update_branch k none rec db m b a = db := rfl
    have hn : branchNewFlag k none rec b a = kindFlag k rec := rfl
    rw [hb, hn]
    constructor
    · rw [hrec, ← hflag, setRowFlag_self_eta]
    · ring
  | some rid =>
    cases hg : roleGained b a rid with
    | true =>
      have hl := roleGained_not_lost b a rid hg
      have hn : branchNewFlag k (some rid) rec b a = true := by
        simp [branchNewFlag, hg]
      cases hf : kindFlag k rec with
      | false =>
        have hb : update_branch k (some rid) rec db m b a
            = setKindFlag k (add_points db rec.inviter_id (kindWeight k)) m true := by
          simp [update_branch, hg, hf]
        rw [hb, hn]
        constructor
        · exact lookup_setKindFlag_self k _ m true recDb hrec
        · rw [points_setKindFlag, get_points_add_points_self]
          norm_num [b2i]
      | true =>
        have hb : update_branch k (some rid) rec db m b a = db := by
          simp [update_branch, hg, hf, hl]
        rw [hb, hn]
        constructor
        · rw [hrec, ← show kindFlag k recDb = true from hflag.trans hf, setRowFlag_self_eta]
        · ring
    | false =>
      cases hl : roleLost b a rid with
      | true =>
        have hn : branchNewFlag k (some rid) rec b a = false := by
          simp [branchNewFlag, hg, hl]
        cases hf : kindFlag k rec with
        | true =>
          have hb : update_branch k (some rid) rec db m b a
              = setKindFlag k (add_points db rec.inviter_id (-(kindWeight k))) m false := by
            simp [update_branch, hg, hl, hf]
          rw [hb, hn]
          constructor
          · exact lookup_setKindFlag_self k _ m false recDb hrec
          · rw [points_setKindFlag, get_points_add_points_self]
            norm_num [b2i]
        | false =>
          have hb : update_branch k (some rid) rec db m b a = db := by
            simp [update_branch, hg, hl, hf]
          rw [hb, hn]
          constructor
          · rw [hrec, ← show kindFlag k recDb = false from hflag.trans hf, setRowFlag_self_eta]
          · ring
      | false =>
        have hb : update_branch k (some rid) rec db m b a = db := by
          simp [update_branch, hg, hl]
        have hn : branchNewFlag k (some rid) rec b a = kindFlag k rec := by
          simp [branchNewFlag, hg, hl]
        rw [hb, hn]
        constructor
        · rw [hrec, ← hflag, setRowFlag_self_eta]
        · ring

/-- `on_member_update` with a valid attributed row unfolds to the two role
blocks, both gating on the initially read row. -/
theorem on_member_update_of_lookup (g : Guild) (db : DB) (m : Nat) (b a : List Nat)
    (rec : InviteMapRow) (h : get_inviter_for_invitee db m = some rec)
    (hv : rec.valid_account = true) :
    on_member_update g db m b a
      = update_branch .striker g.striker_role rec
          (update_branch .members g.members_role rec db m b a) m b a := by
  simp [on_member_update, h, hv]

/-- One full `MemberRoleSetChanged` event: the attribution row becomes
`eventNewRec`, and the inviter's points move by the weighted flag changes. -/
theorem on_member_update_step (g : Guild) (db : DB) (m : Nat) (b a : List Nat)
    (rec : InviteMapRow) (hrec : get_inviter_for_invitee db m = some rec)
    (hv : rec.valid_account = true) :
    get_inviter_for_invitee (on_member_update g db m b a) m
        = some (eventNewRec g rec b a) ∧
    get_inviter_points (on_member_update g db m b a) rec.inviter_id
      = get_inviter_points db rec.inviter_id
        + 1 * (b2i (eventNewRec g rec b a).members_awarded - b2i rec.members_awarded)
        + 2 * (b2i (eventNewRec g rec b a).striker_awarded - b2i rec.striker_awarded) := by
  obtain ⟨h1l, h1p⟩ :=
    update_branch_step .members g.members_role rec rec db m b a hrec rfl
  obtain ⟨h2l, h2p⟩ :=
    update_branch_step .striker g.striker_role rec
      (setRowFlag .members rec (branchNewFlag .members g.members_role rec b a))
      (update_branch .members g.members_role rec db m b a) m b a h1l rfl
  rw [on_member_update_of_lookup g db m b a rec hrec hv]
  constructor
  · exact h2l
  · rw [h2p, h1p, eventNewRec_members, eventNewRec_striker]
    simp only [kindWeight, kindFlag]

/-- Invariant of claim C2, generalised over arbitrary starting flags: over
any event sequence the inviter's point total moves by exactly the
weighted change of the two awarded flags. -/
theorem process_events_invariant (g : Guild) (m : Nat)
    (events : List (List Nat × List Nat)) :
    ∀ (db : DB) (rec : InviteMapRow),
      get_inviter_for_invitee db m = some rec → rec.valid_account = true →
      ∃ rec2, get_inviter_for_invitee (process_events g m db events) m = some rec2 ∧
        rec2.inviter_id = rec.inviter_id ∧ rec2.valid_account = true ∧
        get_inviter_points (process_events g m db events) rec.inviter_id
          = get_inviter_points db rec.inviter_id
            + 1 * (b2i rec2.members_awarded - b2i rec.members_awarded)
            + 2 * (b2i rec2.striker_awarded - b2i rec.striker_awarded) := by
  induction events with
  | nil =>
    intro db rec h hv
    exact ⟨rec, h, rfl, hv, by simp [process_events]⟩
  | cons e es ih =>
    intro db rec h hv
    obtain ⟨hlk, hpts⟩ := on_member_update_step g db m e.1 e.2 rec h hv
    obtain ⟨rec2, h2, hinv2, hv2, hp2⟩ :=
      ih (on_member_update g db m e.1 e.2) (eventNewRec g rec e.1 e.2) hlk
        (by rw [eventNewRec_valid]; exact hv)
    have hfold : process_events g m db (e :: es)
        = process_events g m (on_member_update g db m e.1 e.2) es := rfl
    refine ⟨rec2, by rw [hfold]; exact h2, by rw [hinv2, eventNewRec_inviter_id], hv2, ?_⟩
    rw [hfold]
    rw [eventNewRec_inviter_id] at hp2
    rw [hp2, hpts]
    ring

/-- Claim C2: for an attributed, valid-account invitee starting with both
awarded flags clear, any finite sequence of role-change events leaves the
inviter's net point delta at exactly `weight` per kind whose awarded flag
is set in the final state (1 for Members, 2 for Striker) and 0 otherwise;
in particular at most one weight of credit per kind is ever outstanding. -/
theorem C2_net_delta_matches_flags (g : Guild) (db : DB) (m : Nat)
    (events : List (List Nat × List Nat)) (rec : InviteMapRow)
    (hrec : get_inviter_for_invitee db m = some rec)
    (hvalid : rec.valid_account = true)
    (hm0 : rec.members_awarded = false) (hs0 : rec.striker_awarded = false) :
    ∃ rec2, get_inviter_for_invitee (process_events g m db events) m = some rec2 ∧
      rec2.inviter_id = rec.inviter_id ∧
      get_inviter_points (process_events g m db events) rec.inviter_id
        = get_inviter_points db rec.inviter_id
          + (if rec2.members_awarded then (1 : Int) else 0)
          + (if rec2.striker_awarded then (2 : Int) else 0) := by
  obtain ⟨rec2, h2, hinv2, _, hp2⟩ :=
    process_events_invariant g m events db rec hrec hvalid
  refine ⟨rec2, h2, hinv2, ?_⟩
  rw [hp2, hm0, hs0]
  cases rec2.members_awarded <;> cases rec2.striker_awarded <;> norm_num [b2i]

/-- Witness for `C2_net_delta_matches_flags`: a fresh valid attribution,
then one event granting both roles. -/
theorem C2_witness :
    ∃ rec2, get_inviter_for_invitee
        (process_events ⟨some 10, some 20⟩ 2
          ⟨[], [], [⟨2, 1, false, false, true, none⟩], []⟩ [([], [10, 20])]) 2
        = some rec2 ∧
      rec2.inviter_id = (⟨2, 1, false, false, true, none⟩ : InviteMapRow).inviter_id ∧
      get_inviter_points
          (process_events ⟨some 10, some 20⟩ 2
            ⟨[], [], [⟨2, 1, false, false, true, none⟩], []⟩ [([], [10, 20])]) 1
        = get_inviter_points (⟨[], [], [⟨2, 1, false, false, true, none⟩], []⟩ : DB) 1
          + (if rec2.members_awarded then (1 : Int) else 0)
          + (if rec2.striker_awarded then (2 : Int) else 0) :=
  C2_net_delta_matches_flags ⟨some 10, some 20⟩
    ⟨[], [], [⟨2, 1, false, false, true, none⟩], []⟩ 2 [([], [10, 20])]
    ⟨2, 1, false, false, true, none⟩ rfl rfl rfl rfl

/-! ### Claim C6: replaying an event is a no-op -/

theorem branchNewFlag_gained (k : RoleKind) (rid : Nat) (rec : InviteMapRow)
    (b a : List Nat) (h : roleGained b a rid = true) :
    branchNewFlag k (some rid) rec b a = true := by
  simp [branchNewFlag, h]

theorem branchNewFlag_lost (k : RoleKind) (rid : Nat) (rec : InviteMapRow)
    (b a : List Nat) (h : roleLost b a rid = true) :
    branchNewFlag k (some rid) rec b a = false := by
  have hg := roleLost_not_gained b a rid h
  simp [branchNewFlag, hg, h]

/-- A role block is a strict no-op when the gating row's flag already
reflects the event's direction. -/
theorem update_branch_noop (k : RoleKind) (roleOpt : Option Nat)
    (rec2 : InviteMapRow) (db : DB) (m : Nat) (b a : List Nat)
    (hcond : ∀ rid, roleOpt = some rid →
      (roleGained b a rid = true → kindFlag k rec2 = true) ∧
      (roleLost b a rid = true → kindFlag k rec2 = false)) :
    update_branch k roleOpt rec2 db m b a = db := by
  cases roleOpt with
  | none => rfl
  | some rid =>
    obtain ⟨h1, h2⟩ := hcond rid rfl
    cases hg : roleGained b a rid with
    | true =>
      have hf := h1 hg
      have hl := roleGained_not_lost b a rid hg
      simp [update_branch, hg, hf, hl]
    | false =>
      cases hl : roleLost b a rid with
      | true =>
        have hf := h2 hl
        simp [update_branch, hg, hl, hf]
      | false =>
        simp [update_branch, hg, hl]

/-- Processing the same role-change event twice in a row leaves the state
of the first processing unchanged. -/
theorem on_member_update_idem (g : Guild) (db : DB) (m : Nat) (b a : List Nat) :
    on_member_update g (on_member_update g db m b a) m b a
      = on_member_update g db m b a := by
  cases hrec : get_inviter_for_invitee db m with
  | none =>
    have h : on_member_update g db m b a = db := by simp [on_member_update, hrec]
    rw [h]
    exact h
  | some rec =>
    cases hv : rec.valid_account with
    | false =>
      have h : on_member_update g db m b a = db := by simp [on_member_update, hrec, hv]
      rw [h]
      exact h
    | true =>
      obtain ⟨hlk, _⟩ := on_member_update_step g db m b a rec hrec hv
      have hv2 : (eventNewRec g rec b a).valid_account = true := by
        rw [eventNewRec_valid]
        exact hv
      have hm3 : update_branch .members g.members_role (eventNewRec g rec b a)
          (on_member_update g db m b a) m b a = on_member_update g db m b a := by
        apply update_branch_noop
        intro rid hrid
        have he : kindFlag .members (eventNewRec g rec b a)
            = branchNewFlag .members g.members_role rec b a := eventNewRec_members g rec b a
        constructor
        · intro hgd
          rw [he, hrid]
          exact branchNewFlag_gained _ rid rec b a hgd
        · intro hls
          rw [he, hrid]
          exact branchNewFlag_lost _ rid rec b a hls
      have hs3 : update_branch .striker g.striker_role (eventNewRec g rec b a)
          (on_member_update g db m b a) m b a = on_member_update g db m b a := by
        apply update_branch_noop
        intro rid hrid
        have he : kindFlag .striker (eventNewRec g rec b a)
            = branchNewFlag .striker g.striker_role rec b a := eventNewRec_striker g rec b a
        constructor
        · intro hgd
          rw [he, hrid]
          exact branchNewFlag_gained _ rid rec b a hgd
        · intro hls
          rw [he, hrid]
          exact branchNewFlag_lost _ rid rec b a hls
      rw [on_member_update_of_lookup g (on_member_update g db m b a) m b a
        (eventNewRec g rec b a) hlk hv2, hm3, hs3]

/-- Claim C6: replaying the same `MemberRoleSetChanged` event (identical
before/after role sets) immediately after processing it produces no
additional change to any user's point total. -/
theorem C6_replay_idempotent (g : Guild) (db : DB) (m : Nat) (b a : List Nat) (u : Nat) :
    get_inviter_points (on_member_update g (on_member_update g db m b a) m b a) u
      = get_inviter_points (on_member_update g db m b a) u := by
  rw [on_member_update_idem]

end BetStrike
